import Mathlib

/-!
Authorizer: token verification against a fetched key set.

A shallow embedding of `authentication/authorizer/authorizer.go`:

* `VerifyToken`        (authorizer.go, lines 15-44)
* `AppendKeysFromUrl`  (authorizer.go, lines 46-76)

The two functions are glue around third-party packages (`golang-jwt/jwt/v4`,
`lestrrat-go/jwx/jwk`, `encoding/json`, `net/http`).  Every call into such a
package is a field of a record of functions (`JwtLib`, `HttpEnv`), so that
the theorems hold for every behaviour of those packages; the control flow
written in `authorizer.go` is embedded as is.  Values of Go type `interface{}` are
embedded as `GoVal`, Go maps `map[string]interface{}` as association lists,
and a Go run-time panic is an explicit outcome `Res.panic`.

Each library call that `VerifyToken` performs on a key record is recorded in a
trace of `Event`s, so that statements such as "no record is materialised" or
"only the first matching record is serialised" can be stated and proved.
-/

namespace Authorizer

/-! ## Go values -/

/-- Dynamic values held in an `interface{}`: what `encoding/json` decodes into
(`nil`, `bool`, `float64`, `string`, `[]interface{}`, `map[string]interface{}`),
plus function values, which a caller may put in a key record (the test
`notJsonPublicJWK` does).  A `float64` obtained from JSON is finite; the
model carries the integral ones, `num n` being the number `n` (time claims are
numbers of seconds). -/
inductive GoVal where
  | nil
  | bool (b : Bool)
  | num (n : Int)
  | str (s : String)
  | arr (xs : List GoVal)
  | obj (fields : List (String × GoVal))
  | func

/-- A Go `map[string]interface{}`. -/
abbrev GoMap := List (String × GoVal)

/-- A key record: one element of `keys []map[string]interface{}`. -/
abbrev KeyRecord := GoMap

/-- Go map indexing `m[k]`: the stored value, or the zero value of
`interface{}` (nil) when the key is absent. -/
def GoMap.index (m : GoMap) (k : String) : GoVal :=
  match m.lookup k with
  | some v => v
  | none => GoVal.nil

/-- Go comparison `a == b` of two `interface{}` values.  Values of different
dynamic types are unequal; values of the same comparable dynamic type are
compared by value; two values of the same dynamic type that is not comparable
(slice, map, func) make the comparison panic at run time: `none`. -/
def goEq : GoVal → GoVal → Option Bool
  | .nil, .nil => some true
  | .bool a, .bool b => some (a == b)
  | .num a, .num b => some (a == b)
  | .str a, .str b => some (a == b)
  | .arr _, .arr _ => none
  | .obj _, .obj _ => none
  | .func, .func => none
  | _, _ => some false

/-- Go comparison `a != b` of two `interface{}` values (`none`: panic). -/
def goNe (a b : GoVal) : Option Bool :=
  (goEq a b).map not

/-! ## Errors, outcomes, traces -/

/-- Error values that can come back from the two functions. -/
inductive Error where
  /-- an error produced inside a library call -/
  | lib (msg : String)
  /-- line 18: `fmt.Errorf("unexpected signing method: %v", t.Header["alg"])` -/
  | unexpectedSigningMethod (alg : GoVal)
  /-- line 67: `errors.New("keys should be of type slice")` -/
  | keysNotSlice
  /-- the error `jwt.ErrInvalidKeyType`: the verifier was handed something that is not
  an RSA public key -/
  | invalidKeyType
  /-- a `jwt.ValidationError` wrapping the error returned by the key function -/
  | unverifiable (inner : Error)
  /-- a `jwt.ValidationError` wrapping the error of the signature check -/
  | signatureInvalid (inner : Error)
  /-- the `jwt.ValidationError` that `MapClaims.Valid` returns when a time
  claim is violated -/
  | claimsInvalid

/-- Outcome of a Go call that returns `(value, error)` and may panic. -/
inductive Res (α : Type) where
  | ok (a : α)
  | err (e : Error)
  | panic

/-- The operations `VerifyToken` performs on one key record. -/
inductive Op where
  /-- line 21: `t.Header["kid"] != key["kid"]` -/
  | compareKid
  /-- line 24: `json.Marshal(key)` -/
  | marshal
  /-- line 28: `jwk.ParseKey(b)` -/
  | parseKey
  /-- line 32: `jwk.Pem(k)` -/
  | pem
  /-- line 36: `jwt.ParseRSAPublicKeyFromPEM(pem)` -/
  | parsePEM
  deriving DecidableEq, Repr

/-- One step of a `VerifyToken` call that the statements talk about. -/
inductive Event where
  /-- operation `op` applied to the record at position `i` of `keys` -/
  | key (op : Op) (i : Nat)
  /-- the signing method's `Verify` is invoked; `hasKey` tells whether the key
  function handed it a key or nil -/
  | verify (hasKey : Bool)
  /-- the call `Claims.Valid()` -/
  | claimsValid
  deriving DecidableEq, Repr

/-! ## The libraries -/

/-- The Go type of `t.Method`, one per signing-method type registered by
`golang-jwt/jwt/v4`.  `rsa` is `*jwt.SigningMethodRSA` (RS256, RS384, RS512). -/
inductive SigningMethod where
  | rsa
  | rsaPSS
  | hmac
  | ecdsa
  | ed25519
  | none
  deriving DecidableEq, Repr

/-- A `*jwt.Token` as produced by the parser before verification. -/
structure Token where
  /-- field `t.Header` -/
  header : GoMap
  /-- field `t.Claims`, a `jwt.MapClaims` -/
  claims : GoMap
  /-- field `t.Method`, looked up from the header's `alg` -/
  method : SigningMethod
  /-- the first two segments, joined by a dot: what is signed -/
  signingString : String
  /-- the third segment -/
  signature : String

/-- The library functions `VerifyToken` calls.  `B` is `[]byte`, `K` is
`jwk.Key`, `P` is `*rsa.PublicKey`. -/
structure JwtLib (B K P : Type) where
  /-- function `Parser.ParseUnverified`: split in three segments, decode header and
  claims, look up the signing method named by `alg` -/
  parseUnverified : String → Except Error Token
  /-- function `json.Marshal` on a key record -/
  jsonMarshal : KeyRecord → Except Error B
  /-- function `jwk.ParseKey` -/
  jwkParseKey : B → Except Error K
  /-- function `jwk.Pem` -/
  jwkPem : K → Except Error B
  /-- function `jwt.ParseRSAPublicKeyFromPEM` -/
  parseRSAPublicKeyFromPEM : B → Except Error P
  /-- method `SigningMethodRSA.Verify` on a signing string, a signature segment and
  an RSA public key -/
  rsaVerify : String → String → P → Except Error Unit
  /-- method `Verify` of the signing methods other than `SigningMethodRSA` -/
  otherVerify : SigningMethod → String → String → Option P → Except Error Unit
  /-- method `MapClaims.Valid`, at the time of the call -/
  claimsValid : GoMap → Except Error Unit

/-- One time claim as `MapClaims.VerifyExpiresAt`, `VerifyIssuedAt` and
`VerifyNotBefore` of golang-jwt v4 read it, none of them being required: an
absent claim passes, a number is checked with `ok` (the number zero counts as
absent), a value of any other type fails. -/
def timeClaimOk (claims : GoMap) (name : String) (ok : Int → Bool) : Bool :=
  match claims.lookup name with
  | none => true
  | some (.num x) => x == 0 || ok x
  | some _ => false

/-- The claim `exp`, if any, lies after `now` (`now.Before(exp)`). -/
def expOk (now : Int) (claims : GoMap) : Bool :=
  timeClaimOk claims "exp" fun x => decide (now < x)

/-- The claim `iat`, if any, does not lie after `now`. -/
def iatOk (now : Int) (claims : GoMap) : Bool :=
  timeClaimOk claims "iat" fun x => decide (x ≤ now)

/-- The claim `nbf`, if any, does not lie after `now`. -/
def nbfOk (now : Int) (claims : GoMap) : Bool :=
  timeClaimOk claims "nbf" fun x => decide (x ≤ now)

/-- Model of `MapClaims.Valid` of golang-jwt v4 (map_claims.go) at clock time
`now`, in seconds: the three time claims `exp`, `iat` and `nbf` are checked,
and any violation gives a validation error.  (Release 4.0.0 differs in one
point only: it still accepts an `exp` equal to `now`.) -/
def mapClaimsValid (now : Int) (claims : GoMap) : Except Error Unit :=
  if expOk now claims && iatOk now claims && nbfOk now claims then .ok ()
  else .error .claimsInvalid

/-! ## VerifyToken -/

/-- Lines 24-36 of `authorizer.go`: the matched record is serialised, parsed
as a JWK, re-encoded as PEM and parsed as an RSA public key; the first error
is returned.  The second component lists the calls made, in order. -/
def materialise {B K P : Type} (L : JwtLib B K P) (key : KeyRecord) :
    Except Error P × List Op :=
  match L.jsonMarshal key with
  | .error e => (.error e, [.marshal])
  | .ok b =>
    match L.jwkParseKey b with
    | .error e => (.error e, [.marshal, .parseKey])
    | .ok k =>
      match L.jwkPem k with
      | .error e => (.error e, [.marshal, .parseKey, .pem])
      | .ok pem =>
        match L.parseRSAPublicKeyFromPEM pem with
        | .error e => (.error e, [.marshal, .parseKey, .pem, .parsePEM])
        | .ok pk => (.ok pk, [.marshal, .parseKey, .pem, .parsePEM])

/-- Lines 20-38 of `authorizer.go`: the loop `for _, key := range keys` of the
key function, started at position `i`.  A record whose `kid` differs from the
header's is skipped (`continue`); the first record whose `kid` does not differ
is materialised and the loop is left whatever the result; after the last
record the key function returns `nil, nil` (line 38). -/
def keyLoop {B K P : Type} (L : JwtLib B K P) (hkid : GoVal) :
    Nat → List KeyRecord → Res (Option P) × List Event
  | _, [] => (.ok none, [])
  | i, key :: rest =>
    match goNe hkid (key.index "kid") with
    | none => (.panic, [.key .compareKid i])
    | some true =>
      let r := keyLoop L hkid (i + 1) rest
      (r.1, .key .compareKid i :: r.2)
    | some false =>
      match materialise L key with
      | (.error e, ops) => (.err e, .key .compareKid i :: ops.map (Event.key · i))
      | (.ok pk, ops) => (.ok (some pk), .key .compareKid i :: ops.map (Event.key · i))

/-- Lines 16-39 of `authorizer.go`: the key function handed to `jwt.Parse`.
It first requires `t.Method` to be a `*jwt.SigningMethodRSA` (lines 17-19),
then runs the loop over `keys`. -/
def keyFunc {B K P : Type} (L : JwtLib B K P) (keys : List KeyRecord) (t : Token) :
    Res (Option P) × List Event :=
  if t.method ≠ .rsa then
    (.err (.unexpectedSigningMethod (t.header.index "alg")), [])
  else
    keyLoop L (t.header.index "kid") 0 keys

/-- The call `t.Method.Verify(signingString, signature, key)` of the parser.
`SigningMethodRSA.Verify` rejects a key that is not a `*rsa.PublicKey`, nil
included, with `ErrInvalidKeyType`. -/
def methodVerify {B K P : Type} (L : JwtLib B K P) (t : Token) (key : Option P) :
    Except Error Unit :=
  match t.method, key with
  | .rsa, none => .error .invalidKeyType
  | .rsa, some pk => L.rsaVerify t.signingString t.signature pk
  | m, k => L.otherVerify m t.signingString t.signature k

/-- The control flow of `jwt.Parse` (golang-jwt v4, `Parser.ParseWithClaims`
with the default parser): parse without verifying; ask the key function for
the key and wrap its error; verify the signature with the key returned; then
validate the claims.  A panic of the key function is not recovered. -/
def jwtParse {B K P : Type} (L : JwtLib B K P) (token : String)
    (keyFn : Token → Res (Option P) × List Event) : Res Token × List Event :=
  match L.parseUnverified token with
  | .error e => (.err e, [])
  | .ok t =>
    match keyFn t with
    | (.panic, tr) => (.panic, tr)
    | (.err e, tr) => (.err (.unverifiable e), tr)
    | (.ok key, tr) =>
      match methodVerify L t key with
      | .error e => (.err (.signatureInvalid e), tr ++ [.verify key.isSome])
      | .ok _ =>
        match L.claimsValid t.claims with
        | .error e => (.err e, tr ++ [.verify key.isSome, .claimsValid])
        | .ok _ => (.ok t, tr ++ [.verify key.isSome, .claimsValid])

/-- Function `VerifyToken` (lines 15-44): the error of `jwt.Parse` if there is
one (lines 40-42), else the result of `parsedToken.Claims.Valid()` (line 43).
`Res.ok ()` is the nil error. -/
def VerifyToken {B K P : Type} (L : JwtLib B K P) (token : String)
    (keys : List KeyRecord) : Res Unit × List Event :=
  match jwtParse L token (keyFunc L keys) with
  | (.panic, tr) => (.panic, tr)
  | (.err e, tr) => (.err e, tr)
  | (.ok parsedToken, tr) =>
    match L.claimsValid parsedToken.claims with
    | .error e => (.err e, tr ++ [.claimsValid])
    | .ok _ => (.ok (), tr ++ [.claimsValid])

/-- The call returned the nil error / a value. -/
def Res.isOk {α : Type} : Res α → Bool
  | .ok _ => true
  | _ => false

/-- The call returned a non-nil error. -/
def Res.isErr {α : Type} : Res α → Bool
  | .err _ => true
  | _ => false

/-- The call did not return: it panicked. -/
def Res.isPanic {α : Type} : Res α → Bool
  | .panic => true
  | _ => false

/-! ## AppendKeysFromUrl -/

/-- What `AppendKeysFromUrl` calls for one endpoint, for a fixed context and
client.  `Rq` is `*http.Request`, `Rs` is `*http.Response`, `B` is `[]byte`. -/
structure HttpEnv (Rq Rs B : Type) where
  /-- line 49: `http.NewRequestWithContext(ctx, http.MethodGet, endpoint, nil)` -/
  newRequest : String → Except Error Rq
  /-- line 53: `client.Do(req)` -/
  doRequest : Rq → Except Error Rs
  /-- line 57: `io.ReadAll(r.Body)` -/
  readAll : Rs → Except Error B
  /-- line 62: `json.Unmarshal(body, &res)` with `res` an empty
  `map[string]interface{}` -/
  jsonUnmarshal : B → Except Error GoMap

/-- Lines 69-73: every element of `keyList` that is a
`map[string]interface{}` is appended to `keys`; the others are passed over. -/
def appendObjects : List KeyRecord → List GoVal → List KeyRecord
  | keys, [] => keys
  | keys, .obj k :: vs => appendObjects (keys ++ [k]) vs
  | keys, _ :: vs => appendObjects keys vs

/-- Lines 48-75: the loop `for _, endpoint := range urls`, with the key list
accumulated so far.  The Go pair `(keys, err)` is a pair of options, `none`
being nil. -/
def appendLoop {Rq Rs B : Type} (E : HttpEnv Rq Rs B) :
    List KeyRecord → List String → Option (List KeyRecord) × Option Error
  | keys, [] => (some keys, none)
  | keys, endpoint :: rest =>
    match E.newRequest endpoint with
    | .error e => (none, some e)
    | .ok req =>
      match E.doRequest req with
      | .error e => (none, some e)
      | .ok r =>
        match E.readAll r with
        | .error e => (none, some e)
        | .ok body =>
          match E.jsonUnmarshal body with
          | .error e => (none, some e)
          | .ok res =>
            match res.index "keys" with
            | .arr keyList => appendLoop E (appendObjects keys keyList) rest
            | _ => (none, some .keysNotSlice)

/-- Function `AppendKeysFromUrl` (lines 46-76): the loop started with the
empty, non-nil list of line 47. -/
def AppendKeysFromUrl {Rq Rs B : Type} (E : HttpEnv Rq Rs B) (urls : List String) :
    Option (List KeyRecord) × Option Error :=
  appendLoop E [] urls

/-! ## Notions used in the statements -/

/-- The header's `kid` equals the record's `kid`: the Go comparison of the two
values is defined and true. -/
def kidEquals (hkid : GoVal) (r : KeyRecord) : Bool :=
  match goEq hkid (r.index "kid") with
  | some true => true
  | _ => false

/-- The first record, in list order from position `i`, whose `kid` equals
`hkid`, with its position. -/
def firstMatchFrom (hkid : GoVal) : Nat → List KeyRecord → Option (Nat × KeyRecord)
  | _, [] => none
  | i, r :: rest => if kidEquals hkid r then some (i, r) else firstMatchFrom hkid (i + 1) rest

/-- The first record of `keys`, in list order, whose `kid` equals `hkid`. -/
def firstMatch (hkid : GoVal) (keys : List KeyRecord) : Option (Nat × KeyRecord) :=
  firstMatchFrom hkid 0 keys

/-- The entries of a `"keys"` array that are JSON objects, in order. -/
def objectEntries (vs : List GoVal) : List KeyRecord :=
  vs.filterMap fun v =>
    match v with
    | .obj k => some k
    | _ => none

/-- The value is not a JSON object. -/
def notObject : GoVal → Bool
  | .obj _ => false
  | _ => true

/-- Endpoint `u` answers with a JSON object whose `"keys"` field is the array
`entries`: the request is built and sent, the body is read and decodes to an
object, and its `"keys"` field holds that array. -/
def Answers {Rq Rs B : Type} (E : HttpEnv Rq Rs B) (u : String) (entries : List GoVal) : Prop :=
  ∃ req r body res, E.newRequest u = .ok req ∧ E.doRequest req = .ok r ∧
    E.readAll r = .ok body ∧ E.jsonUnmarshal body = .ok res ∧ res.index "keys" = .arr entries

/-- The value is not a JSON array (a missing field reads as nil). -/
def notArray : GoVal → Bool
  | .arr _ => false
  | _ => true

/-- Endpoint `u` fails: the request cannot be built or sent or its body read,
or the body does not decode to a JSON object, or the object's `"keys"` field is
missing or is not an array. -/
def Fails {Rq Rs B : Type} (E : HttpEnv Rq Rs B) (u : String) : Prop :=
  (∃ e, E.newRequest u = .error e) ∨
  (∃ req e, E.newRequest u = .ok req ∧ E.doRequest req = .error e) ∨
  (∃ req r e, E.newRequest u = .ok req ∧ E.doRequest req = .ok r ∧ E.readAll r = .error e) ∨
  (∃ req r body e, E.newRequest u = .ok req ∧ E.doRequest req = .ok r ∧
    E.readAll r = .ok body ∧ E.jsonUnmarshal body = .error e) ∨
  (∃ req r body res, E.newRequest u = .ok req ∧ E.doRequest req = .ok r ∧
    E.readAll r = .ok body ∧ E.jsonUnmarshal body = .ok res ∧ notArray (res.index "keys") = true)

/-! ## A small executable instance of the libraries

`refLib` and `refEnv` are finite stand-ins for the third-party packages, on
which the functions above can be evaluated.  They keep the features of the
real packages that the statements below depend on: `json.Marshal` rejects a
function value; `jwk.ParseKey` dispatches on `kty`, requires `n` and `e` of an
RSA key to be base64url text and stores `alg`, `use` and `kid` without checking
them; `SigningMethodRSA.Verify` rejects a signature made for another key;
`MapClaims.Valid` is the model `mapClaimsValid` at a fixed clock. -/

/-- The text is non-empty and drawn from the base64url alphabet. -/
def isBase64Url (s : String) : Bool :=
  !s.data.isEmpty && s.data.all fun c => c.isAlphanum || c == '-' || c == '_'

/-- Stand-in for `json.Marshal`: a record holding a function value is not
serialisable; any other record is its own serialisation. -/
def refMarshal (key : KeyRecord) : Except Error KeyRecord :=
  if key.any (fun kv => match kv.2 with | .func => true | _ => false) then
    .error (.lib "json: unsupported type: func()")
  else .ok key

/-- Stand-in for `jwk.ParseKey`: only `kty` = "RSA" with base64url `n` and
`e` yields a key; `alg` is not looked at. -/
def refParseKey (b : KeyRecord) : Except Error (String × String) :=
  match b.index "kty" with
  | .str "RSA" =>
    match b.index "n", b.index "e" with
    | .str n, .str e =>
      if isBase64Url n && isBase64Url e then .ok (n, e)
      else .error (.lib "failed to decode base64 value")
    | _, _ => .error (.lib "required field missing")
  | _ => .error (.lib "invalid key type from JSON")

/-- Stand-in for `jwk.Pem`. -/
def refPem (k : String × String) : Except Error KeyRecord :=
  .ok [("n", .str k.1), ("e", .str k.2)]

/-- Stand-in for `jwt.ParseRSAPublicKeyFromPEM`. -/
def refParsePEM (b : KeyRecord) : Except Error (String × String) :=
  match b.index "n", b.index "e" with
  | .str n, .str e => .ok (n, e)
  | _, _ => .error (.lib "invalid key: key must be a PEM encoded PKCS1 or PKCS8 key")

/-- Stand-in for `SigningMethodRSA.Verify`: the signature of signing string
`ss` made with the private key of modulus `n` is the text `n/ss`. -/
def refRsaVerify (ss sig : String) (pk : String × String) : Except Error Unit :=
  if sig = pk.1 ++ "/" ++ ss then .ok () else .error (.lib "crypto/rsa: verification error")

/-- The clock of the stand-in, in seconds. -/
def refNow : Int := 1700000000

/-- Stand-in for `MapClaims.Valid`: the model of golang-jwt v4 at the clock of
the stand-in. -/
def refClaimsValid (claims : GoMap) : Except Error Unit :=
  mapClaimsValid refNow claims

/-- A token of the stand-in: header `h` named `hn`, claims `c` named `cn`,
signed with the private key of modulus `signer`. -/
def refToken (hn : String) (h : GoMap) (m : SigningMethod) (cn : String) (c : GoMap)
    (signer : String) : Token :=
  { header := h, claims := c, method := m, signingString := hn ++ "." ++ cn,
    signature := signer ++ "/" ++ hn ++ "." ++ cn }

/-- Claims with an expiry far in the future. -/
def freshClaims : GoMap := [("sub", .str "1234567890"), ("exp", .num 99999999999)]

/-- Claims with an expiry far in the past. -/
def staleClaims : GoMap := [("sub", .str "1234567890"), ("exp", .num (-99999999999))]

/-- Claims without `exp` and `nbf`, issued far in the future. -/
def futureIatClaims : GoMap := [("sub", .str "1234567890"), ("iat", .num 99999999999)]

/-- A correctly signed, unexpired RS256 token with `kid` "k1", signed by the
key of modulus `N1`. -/
def tokValid : Token :=
  refToken "hK1" [("alg", .str "RS256"), ("typ", .str "JWT"), ("kid", .str "k1")]
    .rsa "fresh" freshClaims "N1"

/-- The same header and claims, signed by another private key. -/
def tokForged : Token :=
  refToken "hK1" [("alg", .str "RS256"), ("typ", .str "JWT"), ("kid", .str "k1")]
    .rsa "fresh" freshClaims "N2"

/-- A correctly signed token whose `exp` is in the past. -/
def tokExpired : Token :=
  refToken "hK1" [("alg", .str "RS256"), ("typ", .str "JWT"), ("kid", .str "k1")]
    .rsa "stale" staleClaims "N1"

/-- A correctly signed, unexpired token whose header names the key "k2". -/
def tokK2 : Token :=
  refToken "hK2" [("alg", .str "RS256"), ("typ", .str "JWT"), ("kid", .str "k2")]
    .rsa "fresh" freshClaims "N1"

/-- A correctly signed, unexpired RS256 token whose header has no `kid`. -/
def tokNoKid : Token :=
  refToken "hNoKid" [("alg", .str "RS256"), ("typ", .str "JWT")]
    .rsa "fresh" freshClaims "N1"

/-- An RS256 token whose header is `{"alg":"RS256","typ":"JWT","kid":[]}`. -/
def tokArrKid : Token :=
  refToken "hArrKid" [("alg", .str "RS256"), ("typ", .str "JWT"), ("kid", .arr [])]
    .rsa "fresh" freshClaims "N1"

/-- A token declaring HS256, with `kid` "k1". -/
def tokHS : Token :=
  refToken "hHS256" [("alg", .str "HS256"), ("typ", .str "JWT"), ("kid", .str "k1")]
    .hmac "fresh" freshClaims "mac"

/-- A correctly signed token for key "k1" whose only time claim is an `iat`
in the future. -/
def tokFutureIat : Token :=
  refToken "hK1" [("alg", .str "RS256"), ("typ", .str "JWT"), ("kid", .str "k1")]
    .rsa "futureIat" futureIatClaims "N1"

/-- Stand-in for `Parser.ParseUnverified`: the tokens it knows, by name; any
other string is malformed. -/
def refParseUnverified (token : String) : Except Error Token :=
  match token with
  | "hK1.fresh.N1" => .ok tokValid
  | "hK1.fresh.N2" => .ok tokForged
  | "hK1.stale.N1" => .ok tokExpired
  | "hK1.futureIat.N1" => .ok tokFutureIat
  | "hK2.fresh.N1" => .ok tokK2
  | "hNoKid.fresh.N1" => .ok tokNoKid
  | "hArrKid.fresh.N1" => .ok tokArrKid
  | "hHS256.fresh.mac" => .ok tokHS
  | _ => .error (.lib "token contains an invalid number of segments")

/-- The stand-in library. -/
def refLib : JwtLib KeyRecord (String × String) (String × String) :=
  { parseUnverified := refParseUnverified
    jsonMarshal := refMarshal
    jwkParseKey := refParseKey
    jwkPem := refPem
    parseRSAPublicKeyFromPEM := refParsePEM
    rsaVerify := refRsaVerify
    otherVerify := fun _ _ _ _ => .error (.lib "key is of invalid type")
    claimsValid := refClaimsValid }

/-- An RSA key record with the given `kid` value, `alg` text and modulus. -/
def rsaRecord (kid : GoVal) (alg n : String) : KeyRecord :=
  [("kty", .str "RSA"), ("e", .str "AQAB"), ("use", .str "sig"), ("kid", kid),
   ("alg", .str alg), ("n", .str n)]

/-- The record of key `k1`, modulus `N1`. -/
def keyK1 : KeyRecord := rsaRecord (.str "k1") "RS256" "N1"

/-- A record of another key that also carries the identifier `k1`. -/
def keyK1b : KeyRecord := rsaRecord (.str "k1") "RS256" "N2"

/-- The record of key `k3`, modulus `N3`. -/
def keyK3 : KeyRecord := rsaRecord (.str "k3") "RS256" "N3"

/-- A record with identifier `k1` whose modulus is not base64url text. -/
def keyBadN : KeyRecord := rsaRecord (.str "k1") "RS256" "!!"

/-- The record of modulus `N1` published without a `kid` field. -/
def keyNoKid : KeyRecord :=
  [("kty", .str "RSA"), ("e", .str "AQAB"), ("use", .str "sig"), ("alg", .str "RS256"),
   ("n", .str "N1")]

/-- The record of key `k1`, modulus `N1`, declaring the algorithm HS256. -/
def keyAlgHS : KeyRecord := rsaRecord (.str "k1") "HS256" "N1"

/-- A record whose `kid` is a JSON array. -/
def keyArrKid : KeyRecord := rsaRecord (.arr []) "RS256" "N1"

/-- Stand-in for the network and `json.Unmarshal`: three endpoints that answer
and one that is down; bodies are named. -/
def refEnv : HttpEnv String String String :=
  { newRequest := fun u => if u = "" then .error (.lib "net/http: invalid url") else .ok u
    doRequest := fun req =>
      match req with
      | "https://a/jwks" => .ok "docA"
      | "https://b/jwks" => .ok "docB"
      | "https://c/jwks" => .ok "docKeysObject"
      | "https://d/jwks" => .ok "notjson"
      | _ => .error (.lib "dial tcp: connection refused")
    readAll := fun r => .ok r
    jsonUnmarshal := fun body =>
      match body with
      | "docA" => .ok [("keys", .arr [.obj keyK1, .str "junk", .obj keyK1b])]
      | "docB" => .ok [("keys", .arr [.obj keyK3])]
      | "docKeysObject" => .ok [("keys", .obj keyK3)]
      | _ => .error (.lib "invalid character in JSON input") }

/-- The `"keys"` arrays that the endpoints of `refEnv` serve. -/
def refDocs (u : String) : List GoVal :=
  if u = "https://a/jwks" then [.obj keyK1, .str "junk", .obj keyK1b] else [.obj keyK3]

/-- What the key function returns once the matched record has gone through
`materialise`: its error, or the key. -/
def keyResult {P : Type} : Except Error P → Res (Option P)
  | .error e => .err e
  | .ok pk => .ok (some pk)

/-! ## Lemmas on the comparison of `kid`s -/

theorem goEq_true_defined {a b : GoVal} (h : goEq a b = some true) (c : GoVal) :
    goEq a c ≠ none := by
  cases a <;> cases b <;> simp [goEq] at h <;> cases c <;> simp [goEq]

theorem goNe_of_kidEquals {hkid : GoVal} {r : KeyRecord} (h : kidEquals hkid r = true) :
    goNe hkid (r.index "kid") = some false := by
  unfold kidEquals at h
  unfold goNe
  cases hg : goEq hkid (r.index "kid") with
  | none => simp [hg] at h
  | some b => cases b <;> simp [hg] at h ⊢

theorem kidEquals_of_goNe {hkid : GoVal} {r : KeyRecord}
    (h : goNe hkid (r.index "kid") = some false) : kidEquals hkid r = true := by
  unfold goNe at h
  unfold kidEquals
  cases hg : goEq hkid (r.index "kid") with
  | none => simp [hg] at h
  | some b => cases b <;> simp [hg] at h ⊢

theorem kidEquals_false_of_goNe {hkid : GoVal} {r : KeyRecord}
    (h : goNe hkid (r.index "kid") = some true) : kidEquals hkid r = false := by
  unfold goNe at h
  unfold kidEquals
  cases hg : goEq hkid (r.index "kid") with
  | none => simp [hg] at h
  | some b => cases b <;> simp [hg] at h ⊢

theorem goNe_of_not_kidEquals {hkid : GoVal} {r r2 : KeyRecord}
    (h : kidEquals hkid r = false) (h2 : kidEquals hkid r2 = true) :
    goNe hkid (r.index "kid") = some true := by
  have hd : goEq hkid (r.index "kid") ≠ none := by
    unfold kidEquals at h2
    cases hg : goEq hkid (r2.index "kid") with
    | none => simp [hg] at h2
    | some b =>
      cases b
      · simp [hg] at h2
      · exact goEq_true_defined hg _
  unfold kidEquals at h
  unfold goNe
  cases hg : goEq hkid (r.index "kid") with
  | none => exact absurd hg hd
  | some b => cases b <;> simp [hg] at h ⊢

theorem firstMatchFrom_kidEquals (hkid : GoVal) :
    ∀ (keys : List KeyRecord) (i j : Nat) (r : KeyRecord),
      firstMatchFrom hkid i keys = some (j, r) → kidEquals hkid r = true := by
  intro keys
  induction keys with
  | nil => intro i j r h; simp [firstMatchFrom] at h
  | cons r0 rest ih =>
    intro i j r h
    unfold firstMatchFrom at h
    by_cases hk : kidEquals hkid r0 = true
    · simp [hk] at h
      rw [← h.2]; exact hk
    · simp [hk] at h
      exact ih _ _ _ h

theorem firstMatchFrom_mem (hkid : GoVal) :
    ∀ (keys : List KeyRecord) (i j : Nat) (r : KeyRecord),
      firstMatchFrom hkid i keys = some (j, r) → r ∈ keys := by
  intro keys
  induction keys with
  | nil => intro i j r h; simp [firstMatchFrom] at h
  | cons r0 rest ih =>
    intro i j r h
    unfold firstMatchFrom at h
    by_cases hk : kidEquals hkid r0 = true
    · simp [hk] at h
      simp [h.2]
    · simp [hk] at h
      exact List.mem_cons_of_mem _ (ih _ _ _ h)

theorem firstMatchFrom_none (hkid : GoVal) :
    ∀ (keys : List KeyRecord) (i : Nat),
      (∀ r ∈ keys, goEq hkid (r.index "kid") = some false) →
      firstMatchFrom hkid i keys = none := by
  intro keys
  induction keys with
  | nil => intro i _; rfl
  | cons r0 rest ih =>
    intro i h
    have h0 : kidEquals hkid r0 = false := by
      simp [kidEquals, h r0 (List.mem_cons_self _ _)]
    simp [firstMatchFrom, h0, ih (i + 1) (fun r hr => h r (List.mem_cons_of_mem _ hr))]

/-! ## Lemmas on the key-selection loop -/

theorem keyLoop_match {B K P : Type} (L : JwtLib B K P) (hkid : GoVal) (i : Nat)
    (r : KeyRecord) (rest : List KeyRecord) (h : kidEquals hkid r = true) :
    keyLoop L hkid i (r :: rest) =
      (keyResult (materialise L r).1,
        .key .compareKid i :: (materialise L r).2.map (Event.key · i)) := by
  unfold keyLoop
  rw [goNe_of_kidEquals h]
  rcases hm : materialise L r with ⟨res, ops⟩
  cases res <;> simp [keyResult]

theorem keyLoop_skip {B K P : Type} (L : JwtLib B K P) (hkid : GoVal) (i : Nat)
    (r : KeyRecord) (rest : List KeyRecord) (h : goNe hkid (r.index "kid") = some true) :
    keyLoop L hkid i (r :: rest) =
      ((keyLoop L hkid (i + 1) rest).1, .key .compareKid i :: (keyLoop L hkid (i + 1) rest).2) := by
  rw [keyLoop, h]

theorem keyLoop_firstMatchFrom {B K P : Type} (L : JwtLib B K P) (hkid : GoVal) :
    ∀ (keys : List KeyRecord) (i j : Nat) (r : KeyRecord),
      firstMatchFrom hkid i keys = some (j, r) →
      ∃ n, j = i + n ∧ keyLoop L hkid i keys =
        (keyResult (materialise L r).1,
          (List.range' i (n + 1)).map (Event.key .compareKid) ++
            (materialise L r).2.map (Event.key · j)) := by
  intro keys
  induction keys with
  | nil => intro i j r h; simp [firstMatchFrom] at h
  | cons r0 rest ih =>
    intro i j r h
    have hr := firstMatchFrom_kidEquals hkid _ _ _ _ h
    unfold firstMatchFrom at h
    by_cases hk : kidEquals hkid r0 = true
    · simp [hk] at h
      obtain ⟨hi, hr0⟩ := h
      subst hi; subst hr0
      exact ⟨0, rfl, by rw [keyLoop_match L hkid i r0 rest hk]; simp⟩
    · simp [hk] at h
      obtain ⟨n, hj, hloop⟩ := ih _ _ _ h
      have hne : goNe hkid (r0.index "kid") = some true :=
        goNe_of_not_kidEquals (by simpa using hk) hr
      refine ⟨n + 1, by omega, ?_⟩
      rw [keyLoop_skip L hkid i r0 rest hne, hloop]
      simp [List.range'_succ]

theorem keyLoop_firstMatch {B K P : Type} (L : JwtLib B K P) (hkid : GoVal)
    (keys : List KeyRecord) (j : Nat) (r : KeyRecord)
    (h : firstMatch hkid keys = some (j, r)) :
    keyLoop L hkid 0 keys =
      (keyResult (materialise L r).1,
        (List.range (j + 1)).map (Event.key .compareKid) ++
          (materialise L r).2.map (Event.key · j)) := by
  obtain ⟨n, hj, hloop⟩ := keyLoop_firstMatchFrom L hkid keys 0 j r h
  have hn : n = j := by omega
  subst hn
  rw [hloop, List.range_eq_range']

theorem keyLoop_noMatch {B K P : Type} (L : JwtLib B K P) (hkid : GoVal) :
    ∀ (keys : List KeyRecord) (i : Nat),
      (∀ r ∈ keys, goEq hkid (r.index "kid") = some false) →
      keyLoop L hkid i keys =
        (.ok none, (List.range' i keys.length).map (Event.key .compareKid)) := by
  intro keys
  induction keys with
  | nil => intro i _; simp [keyLoop]
  | cons r0 rest ih =>
    intro i h
    have h0 : goNe hkid (r0.index "kid") = some true := by
      simp [goNe, h r0 (List.mem_cons_self _ _)]
    rw [keyLoop_skip L hkid i r0 rest h0,
      ih (i + 1) (fun r hr => h r (List.mem_cons_of_mem _ hr))]
    simp [List.range'_succ]

theorem keyLoop_materialised_is_first {B K P : Type} (L : JwtLib B K P) (hkid : GoVal) :
    ∀ (keys : List KeyRecord) (i : Nat) (op : Op) (j : Nat),
      Event.key op j ∈ (keyLoop L hkid i keys).2 → op ≠ .compareKid →
      ∃ r, firstMatchFrom hkid i keys = some (j, r) := by
  intro keys
  induction keys with
  | nil => intro i op j h; simp [keyLoop] at h
  | cons r0 rest ih =>
    intro i op j h hop
    cases hne : goNe hkid (r0.index "kid") with
    | none =>
      rw [keyLoop, hne] at h
      simp at h
      exact absurd h.1 hop
    | some b =>
      cases b with
      | true =>
        rw [keyLoop_skip L hkid i r0 rest hne] at h
        simp at h
        rcases h with h | h
        · exact absurd h.1 hop
        · obtain ⟨r, hr⟩ := ih _ _ _ h hop
          exact ⟨r, by simp [firstMatchFrom, kidEquals_false_of_goNe hne, hr]⟩
      | false =>
        have hk := kidEquals_of_goNe hne
        rw [keyLoop_match L hkid i r0 rest hk] at h
        simp at h
        rcases h with h | h
        · exact absurd h.1 hop
        · obtain ⟨_, _, _, hij⟩ := h
          exact ⟨r0, by simp [firstMatchFrom, hk, hij]⟩

theorem keyLoop_ok_some {B K P : Type} (L : JwtLib B K P) (hkid : GoVal) :
    ∀ (keys : List KeyRecord) (i : Nat) (pk : P),
      (keyLoop L hkid i keys).1 = .ok (some pk) →
      ∃ j r, firstMatchFrom hkid i keys = some (j, r) ∧ (materialise L r).1 = .ok pk := by
  intro keys
  induction keys with
  | nil => intro i pk h; simp [keyLoop] at h
  | cons r0 rest ih =>
    intro i pk h
    cases hne : goNe hkid (r0.index "kid") with
    | none => rw [keyLoop, hne] at h; simp at h
    | some b =>
      cases b with
      | true =>
        rw [keyLoop_skip L hkid i r0 rest hne] at h
        obtain ⟨j, r, hr, hm⟩ := ih _ _ h
        exact ⟨j, r, by simp [firstMatchFrom, kidEquals_false_of_goNe hne, hr], hm⟩
      | false =>
        have hk := kidEquals_of_goNe hne
        rw [keyLoop_match L hkid i r0 rest hk] at h
        refine ⟨i, r0, by simp [firstMatchFrom, hk], ?_⟩
        cases hm : (materialise L r0).1 with
        | error e => simp [hm, keyResult] at h
        | ok pk2 => simp [hm, keyResult] at h; rw [h]

/-! ## Lemmas on the aggregation loop -/

theorem appendObjects_eq (vs : List GoVal) :
    ∀ keys : List KeyRecord, appendObjects keys vs = keys ++ objectEntries vs := by
  induction vs with
  | nil => intro keys; simp [appendObjects, objectEntries]
  | cons v vs ih =>
    intro keys
    cases v <;> simp [appendObjects, ih, objectEntries]

theorem objectEntries_length (vs : List GoVal) :
    (List.length ∘ fun u => objectEntries u) vs = (vs.filter fun v => !notObject v).length := by
  induction vs with
  | nil => rfl
  | cons v vs ih =>
    simp only [Function.comp] at ih ⊢
    cases v <;> simp [objectEntries, notObject] at ih ⊢ <;> exact ih

theorem appendLoop_step {Rq Rs B : Type} (E : HttpEnv Rq Rs B) (keys : List KeyRecord)
    (u : String) (rest : List String) (entries : List GoVal) (h : Answers E u entries) :
    appendLoop E keys (u :: rest) = appendLoop E (keys ++ objectEntries entries) rest := by
  obtain ⟨req, r, body, res, h1, h2, h3, h4, h5⟩ := h
  rw [appendLoop]
  simp only [h1, h2, h3, h4, h5, appendObjects_eq]

theorem appendLoop_answers {Rq Rs B : Type} (E : HttpEnv Rq Rs B) (docs : String → List GoVal) :
    ∀ (urls : List String) (keys : List KeyRecord), (∀ u ∈ urls, Answers E u (docs u)) →
      appendLoop E keys urls =
        (some (keys ++ urls.flatMap fun u => objectEntries (docs u)), none) := by
  intro urls
  induction urls with
  | nil => intro keys _; simp [appendLoop]
  | cons u rest ih =>
    intro keys h
    rw [appendLoop_step E keys u rest (docs u) (h u (List.mem_cons_self _ _)),
      ih _ (fun v hv => h v (List.mem_cons_of_mem _ hv))]
    simp

theorem not_fails_of_answers {Rq Rs B : Type} (E : HttpEnv Rq Rs B) (u : String)
    (entries : List GoVal) (h : Answers E u entries) : ¬ Fails E u := by
  obtain ⟨req, r, body, res, h1, h2, h3, h4, h5⟩ := h
  intro hf
  rcases hf with ⟨e, g1⟩ | ⟨req2, e, g1, g2⟩ | ⟨req2, r2, e, g1, g2, g3⟩ |
    ⟨req2, r2, body2, e, g1, g2, g3, g4⟩ | ⟨req2, r2, body2, res2, g1, g2, g3, g4, g5⟩
  · rw [h1] at g1; cases g1
  · rw [h1] at g1; cases g1; rw [h2] at g2; cases g2
  · rw [h1] at g1; cases g1; rw [h2] at g2; cases g2; rw [h3] at g3; cases g3
  · rw [h1] at g1; cases g1; rw [h2] at g2; cases g2; rw [h3] at g3; cases g3
    rw [h4] at g4; cases g4
  · rw [h1] at g1; cases g1; rw [h2] at g2; cases g2; rw [h3] at g3; cases g3
    rw [h4] at g4; cases g4
    rw [h5] at g5; simp [notArray] at g5

theorem appendLoop_fails {Rq Rs B : Type} (E : HttpEnv Rq Rs B) :
    ∀ (urls : List String) (keys : List KeyRecord), (∃ u ∈ urls, Fails E u) →
      ∃ e, appendLoop E keys urls = (none, some e) := by
  intro urls
  induction urls with
  | nil => intro keys h; obtain ⟨u, hu, _⟩ := h; simp at hu
  | cons u rest ih =>
    intro keys h
    rw [appendLoop]
    cases h1 : E.newRequest u with
    | error e => exact ⟨e, rfl⟩
    | ok req =>
      simp only []
      cases h2 : E.doRequest req with
      | error e => exact ⟨e, rfl⟩
      | ok r =>
        simp only []
        cases h3 : E.readAll r with
        | error e => exact ⟨e, rfl⟩
        | ok body =>
          simp only []
          cases h4 : E.jsonUnmarshal body with
          | error e => exact ⟨e, rfl⟩
          | ok res =>
            simp only []
            cases h5 : res.index "keys" with
            | arr keyList =>
              simp only []
              have hans : Answers E u keyList := ⟨req, r, body, res, h1, h2, h3, h4, h5⟩
              obtain ⟨v, hv, hf⟩ := h
              rcases List.mem_cons.mp hv with hvu | hvr
              · subst hvu
                exact absurd hf (not_fails_of_answers E v keyList hans)
              · exact ih _ ⟨v, hvr, hf⟩
            | nil => exact ⟨.keysNotSlice, rfl⟩
            | bool _ => exact ⟨.keysNotSlice, rfl⟩
            | num _ => exact ⟨.keysNotSlice, rfl⟩
            | str _ => exact ⟨.keysNotSlice, rfl⟩
            | obj _ => exact ⟨.keysNotSlice, rfl⟩
            | func => exact ⟨.keysNotSlice, rfl⟩

/-! ## Lemmas on `VerifyToken` -/

theorem keyFunc_rsa {B K P : Type} (L : JwtLib B K P) (keys : List KeyRecord) (t : Token)
    (hrsa : t.method = .rsa) : keyFunc L keys t = keyLoop L (t.header.index "kid") 0 keys := by
  simp [keyFunc, hrsa]

theorem verifyToken_of_keyFunc_err {B K P : Type} (L : JwtLib B K P) (token : String)
    (keys : List KeyRecord) (t : Token) (e : Error) (tr : List Event)
    (hparse : L.parseUnverified token = .ok t) (hk : keyFunc L keys t = (.err e, tr)) :
    VerifyToken L token keys = (.err (.unverifiable e), tr) := by
  simp [VerifyToken, jwtParse, hparse, hk]

theorem verifyToken_of_keyFunc_panic {B K P : Type} (L : JwtLib B K P) (token : String)
    (keys : List KeyRecord) (t : Token) (tr : List Event)
    (hparse : L.parseUnverified token = .ok t) (hk : keyFunc L keys t = (.panic, tr)) :
    VerifyToken L token keys = (.panic, tr) := by
  simp [VerifyToken, jwtParse, hparse, hk]

theorem verifyToken_of_keyFunc_none {B K P : Type} (L : JwtLib B K P) (token : String)
    (keys : List KeyRecord) (t : Token) (tr : List Event)
    (hparse : L.parseUnverified token = .ok t) (hrsa : t.method = .rsa)
    (hk : keyFunc L keys t = (.ok none, tr)) :
    VerifyToken L token keys = (.err (.signatureInvalid .invalidKeyType), tr ++ [.verify false]) := by
  simp [VerifyToken, jwtParse, hparse, hk, methodVerify, hrsa]

theorem verifyToken_of_keyFunc_some {B K P : Type} (L : JwtLib B K P) (token : String)
    (keys : List KeyRecord) (t : Token) (pk : P) (tr : List Event)
    (hparse : L.parseUnverified token = .ok t) (hrsa : t.method = .rsa)
    (hk : keyFunc L keys t = (.ok (some pk), tr)) :
    (VerifyToken L token keys).1 =
      match L.rsaVerify t.signingString t.signature pk with
      | .error e => .err (.signatureInvalid e)
      | .ok _ =>
        match L.claimsValid t.claims with
        | .error e => .err e
        | .ok _ => .ok () := by
  simp only [VerifyToken, jwtParse, hparse, hk, methodVerify, hrsa]
  cases hv : L.rsaVerify t.signingString t.signature pk with
  | error e => simp
  | ok u =>
    cases hc : L.claimsValid t.claims with
    | error e => simp
    | ok u2 => simp [hc]

theorem verifyToken_trace {B K P : Type} (L : JwtLib B K P) (token : String)
    (keys : List KeyRecord) (t : Token) (hparse : L.parseUnverified token = .ok t) :
    ∃ tail, (VerifyToken L token keys).2 = (keyFunc L keys t).2 ++ tail ∧
      ∀ op j, Event.key op j ∉ tail := by
  simp only [VerifyToken, jwtParse, hparse]
  rcases hk : keyFunc L keys t with ⟨res, tr⟩
  cases res with
  | panic => exact ⟨[], by simp⟩
  | err e => exact ⟨[], by simp⟩
  | ok key =>
    simp only []
    cases hv : methodVerify L t key with
    | error e => exact ⟨[.verify key.isSome], by simp⟩
    | ok u =>
      simp only []
      cases hc : L.claimsValid t.claims with
      | error e => exact ⟨[.verify key.isSome, .claimsValid], by simp⟩
      | ok u2 =>
        simp only [hc]
        exact ⟨[.verify key.isSome, .claimsValid, .claimsValid], by simp⟩

theorem verifyToken_ok_keyFunc {B K P : Type} (L : JwtLib B K P) (token : String)
    (keys : List KeyRecord) (h : (VerifyToken L token keys).1 = .ok ()) :
    ∃ t pk, L.parseUnverified token = .ok t ∧ (keyFunc L keys t).1 = .ok (some pk) ∧
      methodVerify L t (some pk) = .ok () := by
  unfold VerifyToken jwtParse at h
  cases hparse : L.parseUnverified token with
  | error e => simp [hparse] at h
  | ok t =>
    simp only [hparse] at h
    rcases hk : keyFunc L keys t with ⟨res, tr⟩
    rw [hk] at h
    cases res with
    | panic => simp at h
    | err e => simp at h
    | ok key =>
      simp only [] at h
      cases hv : methodVerify L t key with
      | error e => simp [hv] at h
      | ok u =>
        cases key with
        | some pk => exact ⟨t, pk, rfl, by rw [hk], hv⟩
        | none =>
          exfalso
          have hm : t.method = .rsa := by
            by_contra hne
            simp [keyFunc, hne] at hk
          simp [methodVerify, hm] at hv

theorem verifyToken_accepts_iff_valid {B K P : Type} (L : JwtLib B K P) (token : String)
    (keys : List KeyRecord) (t : Token) (i : Nat) (r : KeyRecord) (pk : P)
    (hparse : L.parseUnverified token = .ok t) (hrsa : t.method = .rsa)
    (hkid : firstMatch (t.header.index "kid") keys = some (i, r))
    (hmat : (materialise L r).1 = .ok pk) :
    ((VerifyToken L token keys).1 = .ok () ↔
      (L.rsaVerify t.signingString t.signature pk = .ok () ∧ L.claimsValid t.claims = .ok ())) ∧
    (∀ e, L.rsaVerify t.signingString t.signature pk = .error e →
      (VerifyToken L token keys).1 = .err (.signatureInvalid e)) ∧
    (∀ e, L.rsaVerify t.signingString t.signature pk = .ok () →
      L.claimsValid t.claims = .error e → (VerifyToken L token keys).1 = .err e) := by
  have hk : keyFunc L keys t = (.ok (some pk),
      (List.range (i + 1)).map (Event.key .compareKid) ++
        (materialise L r).2.map (Event.key · i)) := by
    rw [keyFunc_rsa L keys t hrsa, keyLoop_firstMatch L _ keys i r hkid, hmat]
    rfl
  rw [verifyToken_of_keyFunc_some L token keys t pk _ hparse hrsa hk]
  cases hv : L.rsaVerify t.signingString t.signature pk with
  | error e => simp
  | ok u =>
    cases hc : L.claimsValid t.claims with
    | error e => simp
    | ok u2 => simp

theorem refLib_materialise_kty (r : KeyRecord) (pk : String × String)
    (h : (materialise refLib r).1 = .ok pk) : r.index "kty" = .str "RSA" := by
  by_contra hne
  have hm : refMarshal r = .ok r ∨ ∃ e, refMarshal r = .error e := by
    unfold refMarshal
    split
    · exact Or.inr ⟨_, rfl⟩
    · exact Or.inl rfl
  rcases hm with hm | ⟨e, hm⟩
  · have hp : ∃ e, refParseKey r = .error e := by
      unfold refParseKey
      split
      · rename_i heq
        exact absurd heq hne
      · exact ⟨_, rfl⟩
    obtain ⟨e, hp⟩ := hp
    simp [materialise, refLib, hm, hp] at h
  · simp [materialise, refLib, hm] at h

theorem verifyToken_panic_of_uncomparable {B K P : Type} (L : JwtLib B K P) (token : String)
    (t : Token) (r : KeyRecord) (rest : List KeyRecord)
    (hparse : L.parseUnverified token = .ok t) (hrsa : t.method = .rsa)
    (hcmp : goEq (t.header.index "kid") (r.index "kid") = none) :
    VerifyToken L token (r :: rest) = (.panic, [.key .compareKid 0]) := by
  apply verifyToken_of_keyFunc_panic L token (r :: rest) t _ hparse
  rw [keyFunc_rsa L _ t hrsa, keyLoop]
  simp [goNe, hcmp]

/-! ## The claims -/

/-- C1, as stated, fails: a correctly signed RS256 token for key "k1" that has
no `exp` and no `nbf` claim, so no `exp` in the past and no `nbf` in the
future, verified against the record of that key.  Its `iat` lies in the
future, `MapClaims.Valid` refuses it and `VerifyToken` returns the claims
error. -/
theorem verifyToken_rejects_future_iat :
    refLib.parseUnverified "hK1.futureIat.N1" = .ok tokFutureIat ∧
    tokFutureIat.method = .rsa ∧
    firstMatch (tokFutureIat.header.index "kid") [keyK1] = some (0, keyK1) ∧
    (materialise refLib keyK1).1 = .ok ("N1", "AQAB") ∧
    refLib.rsaVerify tokFutureIat.signingString tokFutureIat.signature ("N1", "AQAB") = .ok () ∧
    tokFutureIat.claims.lookup "exp" = none ∧ tokFutureIat.claims.lookup "nbf" = none ∧
    expOk refNow tokFutureIat.claims = true ∧ nbfOk refNow tokFutureIat.claims = true ∧
    (VerifyToken refLib "hK1.futureIat.N1" [keyK1]).1 = .err .claimsInvalid :=
  ⟨rfl, rfl, rfl, rfl, rfl, rfl, rfl, rfl, rfl, rfl⟩

/-- C1, amended: for a token that parses, declares an RSA-family algorithm and
whose header `kid` equals the `kid` of a record of `keys`, the first such
record `r` materialising into the public key `pk`, and with `Claims.Valid()`
being `MapClaims.Valid` of golang-jwt v4 at time `now`: `VerifyToken` returns no
error if and only if the signature verifies over the signing string under `pk`
and the claims have no `exp` at or before `now`, no `iat` after `now` and no
`nbf` after `now`.  In particular a correctly signed token whose `exp` lies in
the future and that has no `iat` or `nbf` in the future is accepted, a
signature that does not verify under `pk` is rejected with the verifier's
error, and a correctly signed token whose `exp` is in the past is rejected with
the claims error, as is one whose `nbf` or `iat` is in the future. -/
theorem verifyToken_accepts_iff_time_claims {B K P : Type} (L : JwtLib B K P)
    (token : String) (keys : List KeyRecord) (t : Token) (i : Nat) (r : KeyRecord) (pk : P)
    (now : Int)
    (hparse : L.parseUnverified token = .ok t) (hrsa : t.method = .rsa)
    (hkid : firstMatch (t.header.index "kid") keys = some (i, r))
    (hmat : (materialise L r).1 = .ok pk)
    (hvalid : L.claimsValid = mapClaimsValid now) :
    ((VerifyToken L token keys).1 = .ok () ↔
      (L.rsaVerify t.signingString t.signature pk = .ok () ∧
        expOk now t.claims = true ∧ iatOk now t.claims = true ∧ nbfOk now t.claims = true)) ∧
    (∀ x, L.rsaVerify t.signingString t.signature pk = .ok () →
      t.claims.lookup "exp" = some (.num x) → now < x →
      t.claims.lookup "iat" = none → t.claims.lookup "nbf" = none →
      (VerifyToken L token keys).1 = .ok ()) ∧
    (∀ e, L.rsaVerify t.signingString t.signature pk = .error e →
      (VerifyToken L token keys).1 = .err (.signatureInvalid e)) ∧
    (∀ x, L.rsaVerify t.signingString t.signature pk = .ok () →
      t.claims.lookup "exp" = some (.num x) → x ≠ 0 → x ≤ now →
      (VerifyToken L token keys).1 = .err .claimsInvalid) ∧
    (∀ x, L.rsaVerify t.signingString t.signature pk = .ok () →
      t.claims.lookup "nbf" = some (.num x) → x ≠ 0 → now < x →
      (VerifyToken L token keys).1 = .err .claimsInvalid) ∧
    (∀ x, L.rsaVerify t.signingString t.signature pk = .ok () →
      t.claims.lookup "iat" = some (.num x) → x ≠ 0 → now < x →
      (VerifyToken L token keys).1 = .err .claimsInvalid) := by
  obtain ⟨hiff, hsig, hcl⟩ :=
    verifyToken_accepts_iff_valid L token keys t i r pk hparse hrsa hkid hmat
  have hval : ∀ c, L.claimsValid c = mapClaimsValid now c := fun c => by rw [hvalid]
  have hok : L.claimsValid t.claims = .ok () ↔
      (expOk now t.claims = true ∧ iatOk now t.claims = true ∧ nbfOk now t.claims = true) := by
    rw [hval, mapClaimsValid]
    by_cases h : (expOk now t.claims && iatOk now t.claims && nbfOk now t.claims) = true
    · simp only [h, if_true, true_iff]
      simpa [Bool.and_eq_true, and_assoc] using h
    · simp only [h, if_false]
      constructor
      · intro hc; cases hc
      · intro hc
        exact absurd (by simpa [Bool.and_eq_true, and_assoc] using hc) h
  have hbad : ¬ (expOk now t.claims = true ∧ iatOk now t.claims = true ∧
      nbfOk now t.claims = true) → L.claimsValid t.claims = .error .claimsInvalid := by
    intro hn
    rw [hval, mapClaimsValid]
    have h : ¬ (expOk now t.claims && iatOk now t.claims && nbfOk now t.claims) = true := by
      intro hc
      exact hn (by simpa [Bool.and_eq_true, and_assoc] using hc)
    simp [h]
  refine ⟨?_, ?_, hsig, ?_, ?_, ?_⟩
  · rw [hiff, hok]
  · intro x hv hexp hlt hiat hnbf
    rw [hiff, hok]
    refine ⟨hv, ?_, ?_, ?_⟩
    · simp [expOk, timeClaimOk, hexp, hlt]
    · simp [iatOk, timeClaimOk, hiat]
    · simp [nbfOk, timeClaimOk, hnbf]
  · intro x hv hexp hx0 hle
    apply hcl _ hv
    apply hbad
    intro hc
    have h1 := hc.1
    simp [expOk, timeClaimOk, hexp, hx0] at h1
    omega
  · intro x hv hnbf hx0 hlt
    apply hcl _ hv
    apply hbad
    intro hc
    have h1 := hc.2.2
    simp [nbfOk, timeClaimOk, hnbf, hx0] at h1
    omega
  · intro x hv hiat hx0 hlt
    apply hcl _ hv
    apply hbad
    intro hc
    have h1 := hc.2.1
    simp [iatOk, timeClaimOk, hiat, hx0] at h1
    omega

/-- Witness of C1 amended: the correctly signed token naming key "k1" whose
`exp` lies in the future, verified against a key set whose second record is
that key; it is accepted. -/
theorem verifyToken_accepts_iff_time_claims_witness :
    refLib.parseUnverified "hK1.fresh.N1" = .ok tokValid ∧ tokValid.method = .rsa ∧
    firstMatch (tokValid.header.index "kid") [keyK3, keyK1] = some (1, keyK1) ∧
    (materialise refLib keyK1).1 = .ok ("N1", "AQAB") ∧
    refLib.claimsValid = mapClaimsValid refNow ∧
    (VerifyToken refLib "hK1.fresh.N1" [keyK3, keyK1]).1 = .ok () ∧
    ((VerifyToken refLib "hK1.fresh.N1" [keyK3, keyK1]).1 = .ok () ↔
      (refLib.rsaVerify tokValid.signingString tokValid.signature ("N1", "AQAB") = .ok () ∧
        expOk refNow tokValid.claims = true ∧ iatOk refNow tokValid.claims = true ∧
        nbfOk refNow tokValid.claims = true)) :=
  ⟨rfl, rfl, rfl, rfl, rfl, rfl,
    (verifyToken_accepts_iff_time_claims refLib "hK1.fresh.N1" [keyK3, keyK1] tokValid 1 keyK1
      ("N1", "AQAB") refNow rfl rfl rfl rfl rfl).1⟩

/-- C2: a token whose header declares an algorithm outside the RSA signature
family (it does not parse into a token whose method is `SigningMethodRSA`) is
rejected for every key set, with one and the same error and an empty trace: no
record is compared, serialised or materialised, and the outcome does not depend
on `keys`.  When the token parses, the error is the unexpected-signing-method
error of the first check of the key function. -/
theorem verifyToken_rejects_non_rsa {B K P : Type} (L : JwtLib B K P) (token : String)
    (halg : ∀ t, L.parseUnverified token = .ok t → t.method ≠ .rsa) :
    ∃ e, (∀ keys : List KeyRecord, VerifyToken L token keys = (.err e, [])) ∧
      ∀ t, L.parseUnverified token = .ok t →
        e = .unverifiable (.unexpectedSigningMethod (t.header.index "alg")) := by
  cases hparse : L.parseUnverified token with
  | error e =>
    exact ⟨e, fun keys => by simp [VerifyToken, jwtParse, hparse], fun t ht => by cases ht⟩
  | ok t =>
    refine ⟨.unverifiable (.unexpectedSigningMethod (t.header.index "alg")), ?_, ?_⟩
    · intro keys
      exact verifyToken_of_keyFunc_err L token keys t _ [] hparse
        (by simp [keyFunc, halg t hparse])
    · intro t2 ht2
      cases ht2
      rfl

/-- Witness of C2: the HS256 token naming key "k1". -/
theorem verifyToken_rejects_non_rsa_witness :
    (∀ t, refLib.parseUnverified "hHS256.fresh.mac" = .ok t → t.method ≠ .rsa) ∧
    VerifyToken refLib "hHS256.fresh.mac" [keyK1] =
      (.err (.unverifiable (.unexpectedSigningMethod (.str "HS256"))), []) ∧
    ∃ e, (∀ keys : List KeyRecord, VerifyToken refLib "hHS256.fresh.mac" keys = (.err e, [])) ∧
      ∀ t, refLib.parseUnverified "hHS256.fresh.mac" = .ok t →
        e = .unverifiable (.unexpectedSigningMethod (t.header.index "alg")) :=
  have h : ∀ t, refLib.parseUnverified "hHS256.fresh.mac" = .ok t → t.method ≠ .rsa := by
    intro t ht
    have ht2 : Except.ok tokHS = Except.ok t := ht
    cases ht2
    decide
  ⟨h, rfl, verifyToken_rejects_non_rsa refLib "hHS256.fresh.mac" h⟩

/-- C3, as stated, fails: a correctly signed RS256 token whose header has no
`kid`, verified against a key set whose only record has no `kid` field either.
The comparison of line 21 finds nil equal to nil, the record is selected and
materialised, the signature is checked against it and the token is accepted. -/
theorem verifyToken_accepts_missing_kid :
    refLib.parseUnverified "hNoKid.fresh.N1" = .ok tokNoKid ∧
    tokNoKid.header.lookup "kid" = none ∧
    firstMatch (tokNoKid.header.index "kid") [keyNoKid] = some (0, keyNoKid) ∧
    VerifyToken refLib "hNoKid.fresh.N1" [keyNoKid] =
      (.ok (), [.key .compareKid 0, .key .marshal 0, .key .parseKey 0, .key .pem 0,
        .key .parsePEM 0, .verify true, .claimsValid, .claimsValid]) :=
  ⟨rfl, rfl, rfl, rfl⟩

/-- C3, amended: for a token whose header has no `kid` field and a key set
every record of which carries a `kid` (a value other than nil), `VerifyToken`
fails: no record is selected, the only operation performed on a record is the
`kid` comparison, and no signature check is run against a key of the set. -/
theorem verifyToken_missing_kid_fails {B K P : Type} (L : JwtLib B K P) (token : String)
    (keys : List KeyRecord)
    (hnokid : ∀ t, L.parseUnverified token = .ok t → t.header.lookup "kid" = none)
    (hkeys : ∀ r ∈ keys, r.index "kid" ≠ .nil) :
    (VerifyToken L token keys).1.isErr = true ∧
    (∀ t, L.parseUnverified token = .ok t → firstMatch (t.header.index "kid") keys = none) ∧
    (∀ op j, Event.key op j ∈ (VerifyToken L token keys).2 → op = .compareKid) ∧
    Event.verify true ∉ (VerifyToken L token keys).2 := by
  cases hparse : L.parseUnverified token with
  | error e =>
    have hv : VerifyToken L token keys = (.err e, []) := by
      simp [VerifyToken, jwtParse, hparse]
    rw [hv]
    refine ⟨rfl, ?_, ?_, ?_⟩
    · intro t ht
      cases ht
    · intro op j hmem
      simp at hmem
    · simp
  | ok t =>
    have hnil : t.header.index "kid" = .nil := by
      simp [GoMap.index, hnokid t hparse]
    have hno : ∀ r ∈ keys, goEq (t.header.index "kid") (r.index "kid") = some false := by
      intro r hr
      rw [hnil]
      have := hkeys r hr
      cases hk : r.index "kid" <;> simp_all [goEq]
    have hfm : firstMatch (t.header.index "kid") keys = none :=
      firstMatchFrom_none _ keys 0 hno
    have hv : ∃ e, VerifyToken L token keys = (.err e, []) ∨
        VerifyToken L token keys =
          (.err e, (List.range' 0 keys.length).map (Event.key .compareKid) ++ [.verify false]) := by
      by_cases hrsa : t.method = .rsa
      · exact ⟨_, Or.inr (verifyToken_of_keyFunc_none L token keys t _ hparse hrsa
          (by rw [keyFunc_rsa L keys t hrsa, keyLoop_noMatch L _ keys 0 hno]))⟩
      · exact ⟨.unverifiable (.unexpectedSigningMethod (t.header.index "alg")),
          Or.inl (verifyToken_of_keyFunc_err L token keys t _ [] hparse
            (by simp [keyFunc, hrsa]))⟩
    obtain ⟨e, hv | hv⟩ := hv
    · rw [hv]
      refine ⟨rfl, ?_, ?_, ?_⟩
      · intro t2 ht2
        cases ht2
        exact hfm
      · intro op j hmem
        simp at hmem
      · simp
    · rw [hv]
      refine ⟨rfl, ?_, ?_, ?_⟩
      · intro t2 ht2
        cases ht2
        exact hfm
      · intro op j hmem
        simp at hmem
        exact hmem.2.symm
      · simp

/-- Witness of C3 amended: the token without `kid` against the record of key
"k1". -/
theorem verifyToken_missing_kid_fails_witness :
    (∀ t, refLib.parseUnverified "hNoKid.fresh.N1" = .ok t → t.header.lookup "kid" = none) ∧
    (∀ r ∈ [keyK1], r.index "kid" ≠ .nil) ∧
    VerifyToken refLib "hNoKid.fresh.N1" [keyK1] =
      (.err (.signatureInvalid .invalidKeyType), [.key .compareKid 0, .verify false]) ∧
    ((VerifyToken refLib "hNoKid.fresh.N1" [keyK1]).1.isErr = true ∧
    (∀ t, refLib.parseUnverified "hNoKid.fresh.N1" = .ok t →
      firstMatch (t.header.index "kid") [keyK1] = none) ∧
    (∀ op j, Event.key op j ∈ (VerifyToken refLib "hNoKid.fresh.N1" [keyK1]).2 →
      op = .compareKid) ∧
    Event.verify true ∉ (VerifyToken refLib "hNoKid.fresh.N1" [keyK1]).2) :=
  have h1 : ∀ t, refLib.parseUnverified "hNoKid.fresh.N1" = .ok t →
      t.header.lookup "kid" = none := by
    intro t ht
    have ht2 : Except.ok tokNoKid = Except.ok t := ht
    cases ht2
    rfl
  have h2 : ∀ r ∈ [keyK1], r.index "kid" ≠ .nil := by
    intro r hr
    simp only [List.mem_singleton] at hr
    subst hr
    intro hc
    have hc2 : GoVal.str "k1" = GoVal.nil := hc
    cases hc2
  ⟨h1, h2, rfl, verifyToken_missing_kid_fails refLib "hNoKid.fresh.N1" [keyK1] h1 h2⟩

/-- C4, as stated, fails: for the RS256 token naming key "k2" and a key set
holding only key "k1", key selection reports no failure (the key function
returns no key and no error), and the signature verification step then runs,
with no key; the error of the call is that step's. -/
theorem keyFunc_no_match_reports_no_error :
    refLib.parseUnverified "hK2.fresh.N1" = .ok tokK2 ∧ tokK2.method = .rsa ∧
    firstMatch (tokK2.header.index "kid") [keyK1] = none ∧
    keyFunc refLib [keyK1] tokK2 = (.ok none, [.key .compareKid 0]) ∧
    VerifyToken refLib "hK2.fresh.N1" [keyK1] =
      (.err (.signatureInvalid .invalidKeyType), [.key .compareKid 0, .verify false]) :=
  ⟨rfl, rfl, rfl, rfl, rfl⟩

/-- C4, amended: for a token that declares an RSA-family algorithm and whose
header `kid` differs from the `kid` of every record of `keys`, `VerifyToken`
fails.  Key selection compares every record and returns no key and no error;
no record is serialised or materialised; the signature verification step is
then invoked without a key and its invalid-key-type error is the error of the
call. -/
theorem verifyToken_no_match_fails {B K P : Type} (L : JwtLib B K P) (token : String)
    (keys : List KeyRecord) (t : Token)
    (hparse : L.parseUnverified token = .ok t) (hrsa : t.method = .rsa)
    (hno : ∀ r ∈ keys, goEq (t.header.index "kid") (r.index "kid") = some false) :
    keyFunc L keys t = (.ok none, (List.range keys.length).map (Event.key .compareKid)) ∧
    VerifyToken L token keys =
      (.err (.signatureInvalid .invalidKeyType),
        (List.range keys.length).map (Event.key .compareKid) ++ [.verify false]) := by
  have hk : keyFunc L keys t =
      (.ok none, (List.range keys.length).map (Event.key .compareKid)) := by
    rw [keyFunc_rsa L keys t hrsa, keyLoop_noMatch L _ keys 0 hno, List.range_eq_range']
  exact ⟨hk, verifyToken_of_keyFunc_none L token keys t _ hparse hrsa hk⟩

/-- Witness of C4 amended: the token naming key "k2" against the records of
keys "k1" and "k3". -/
theorem verifyToken_no_match_fails_witness :
    refLib.parseUnverified "hK2.fresh.N1" = .ok tokK2 ∧ tokK2.method = .rsa ∧
    (∀ r ∈ [keyK1, keyK3], goEq (tokK2.header.index "kid") (r.index "kid") = some false) ∧
    keyFunc refLib [keyK1, keyK3] tokK2 =
      (.ok none, (List.range [keyK1, keyK3].length).map (Event.key .compareKid)) ∧
    VerifyToken refLib "hK2.fresh.N1" [keyK1, keyK3] =
      (.err (.signatureInvalid .invalidKeyType),
        (List.range [keyK1, keyK3].length).map (Event.key .compareKid) ++ [.verify false]) :=
  have hno : ∀ r ∈ [keyK1, keyK3],
      goEq (tokK2.header.index "kid") (r.index "kid") = some false := by
    intro r hr
    simp only [List.mem_cons, List.mem_singleton, List.not_mem_nil, or_false] at hr
    rcases hr with rfl | rfl <;> rfl
  ⟨rfl, rfl, hno, verifyToken_no_match_fails refLib "hK2.fresh.N1" [keyK1, keyK3] tokK2 rfl rfl hno⟩

/-- C5: key selection is first-match-wins in scan order.  For a token that
parses with an RSA-family algorithm, every operation other than the `kid`
comparison that the call performs on a record is performed on the first record
whose `kid` equals the header's; and when that record is at position `i`, the
key function compares records 0 to `i`, serialises and materialises record `i`
only, returns what that materialisation gave (its error included) and consults
no record after `i`; the rest of the call touches no record. -/
theorem verifyToken_first_match_wins {B K P : Type} (L : JwtLib B K P) (token : String)
    (keys : List KeyRecord) (t : Token)
    (hparse : L.parseUnverified token = .ok t) (hrsa : t.method = .rsa) :
    (∀ op j, Event.key op j ∈ (VerifyToken L token keys).2 → op ≠ .compareKid →
      ∃ r, firstMatch (t.header.index "kid") keys = some (j, r)) ∧
    (∀ i r, firstMatch (t.header.index "kid") keys = some (i, r) →
      keyFunc L keys t =
        (keyResult (materialise L r).1,
          (List.range (i + 1)).map (Event.key .compareKid) ++
            (materialise L r).2.map (Event.key · i)) ∧
      ∃ tail, (VerifyToken L token keys).2 =
        ((List.range (i + 1)).map (Event.key .compareKid) ++
          (materialise L r).2.map (Event.key · i)) ++ tail ∧
        ∀ op j, Event.key op j ∉ tail) := by
  obtain ⟨tail, htr, htail⟩ := verifyToken_trace L token keys t hparse
  constructor
  · intro op j hmem hop
    rw [htr, List.mem_append] at hmem
    rcases hmem with hmem | hmem
    · rw [keyFunc_rsa L keys t hrsa] at hmem
      exact keyLoop_materialised_is_first L _ keys 0 op j hmem hop
    · exact absurd hmem (htail op j)
  · intro i r hfm
    have hk := keyLoop_firstMatch L _ keys i r hfm
    rw [← keyFunc_rsa L keys t hrsa] at hk
    refine ⟨hk, tail, ?_, htail⟩
    rw [htr, hk]

/-- Witness of C5: the token naming key "k1" against a key set in which a
record of another key comes first, the first record with `kid` "k1" has a
malformed modulus, and a good record with the same `kid` follows. -/
theorem verifyToken_first_match_wins_witness :
    refLib.parseUnverified "hK1.fresh.N1" = .ok tokValid ∧ tokValid.method = .rsa ∧
    firstMatch (tokValid.header.index "kid") [keyK3, keyBadN, keyK1] = some (1, keyBadN) ∧
    (VerifyToken refLib "hK1.fresh.N1" [keyK3, keyBadN, keyK1]).2 =
      [.key .compareKid 0, .key .compareKid 1, .key .marshal 1, .key .parseKey 1] ∧
    ((∀ op j, Event.key op j ∈ (VerifyToken refLib "hK1.fresh.N1" [keyK3, keyBadN, keyK1]).2 →
      op ≠ .compareKid →
      ∃ r, firstMatch (tokValid.header.index "kid") [keyK3, keyBadN, keyK1] = some (j, r)) ∧
    (∀ i r, firstMatch (tokValid.header.index "kid") [keyK3, keyBadN, keyK1] = some (i, r) →
      keyFunc refLib [keyK3, keyBadN, keyK1] tokValid =
        (keyResult (materialise refLib r).1,
          (List.range (i + 1)).map (Event.key .compareKid) ++
            (materialise refLib r).2.map (Event.key · i)) ∧
      ∃ tail, (VerifyToken refLib "hK1.fresh.N1" [keyK3, keyBadN, keyK1]).2 =
        ((List.range (i + 1)).map (Event.key .compareKid) ++
          (materialise refLib r).2.map (Event.key · i)) ++ tail ∧
        ∀ op j, Event.key op j ∉ tail)) :=
  ⟨rfl, rfl, rfl, rfl,
    verifyToken_first_match_wins refLib "hK1.fresh.N1" [keyK3, keyBadN, keyK1] tokValid rfl rfl⟩

/-- C6: for a token with an RSA-family algorithm whose `kid` first matches a
record that cannot be converted into an RSA public key (one of `json.Marshal`,
`jwk.ParseKey`, `jwk.Pem`, `ParseRSAPublicKeyFromPEM` fails on it with error
`e`), `VerifyToken` returns an error that carries `e`, not success, and stops
after the failed conversion. -/
theorem verifyToken_conversion_failure {B K P : Type} (L : JwtLib B K P) (token : String)
    (keys : List KeyRecord) (t : Token) (i : Nat) (r : KeyRecord) (e : Error)
    (hparse : L.parseUnverified token = .ok t) (hrsa : t.method = .rsa)
    (hkid : firstMatch (t.header.index "kid") keys = some (i, r))
    (hmat : (materialise L r).1 = .error e) :
    VerifyToken L token keys =
      (.err (.unverifiable e),
        (List.range (i + 1)).map (Event.key .compareKid) ++
          (materialise L r).2.map (Event.key · i)) ∧
    (VerifyToken L token keys).1.isOk = false := by
  have hk : keyFunc L keys t = (.err e,
      (List.range (i + 1)).map (Event.key .compareKid) ++
        (materialise L r).2.map (Event.key · i)) := by
    rw [keyFunc_rsa L keys t hrsa, keyLoop_firstMatch L _ keys i r hkid, hmat]
    rfl
  have hv := verifyToken_of_keyFunc_err L token keys t e _ hparse hk
  exact ⟨hv, by rw [hv]; rfl⟩

/-- Witness of C6: the valid token against a key set whose first record with
`kid` "k1" has a modulus that is not base64url text. -/
theorem verifyToken_conversion_failure_witness :
    refLib.parseUnverified "hK1.fresh.N1" = .ok tokValid ∧ tokValid.method = .rsa ∧
    firstMatch (tokValid.header.index "kid") [keyBadN, keyK1] = some (0, keyBadN) ∧
    (materialise refLib keyBadN).1 = .error (.lib "failed to decode base64 value") ∧
    (VerifyToken refLib "hK1.fresh.N1" [keyBadN, keyK1] =
      (.err (.unverifiable (.lib "failed to decode base64 value")),
        (List.range (0 + 1)).map (Event.key .compareKid) ++
          (materialise refLib keyBadN).2.map (Event.key · 0)) ∧
    (VerifyToken refLib "hK1.fresh.N1" [keyBadN, keyK1]).1.isOk = false) :=
  ⟨rfl, rfl, rfl, rfl,
    verifyToken_conversion_failure refLib "hK1.fresh.N1" [keyBadN, keyK1] tokValid 0 keyBadN
      (.lib "failed to decode base64 value") rfl rfl rfl rfl⟩

/-- C7: when every endpoint of the list answers with a JSON object whose
`"keys"` field is an array (`docs u` for endpoint `u`), `AppendKeysFromUrl`
returns no error and the concatenation, in endpoint order and then document
order, of the array entries that are JSON objects; nothing else is dropped,
deduplicated or reordered, so its length is the total number of object
entries; for the empty endpoint list the result is the empty list. -/
theorem appendKeysFromUrl_concat {Rq Rs B : Type} (E : HttpEnv Rq Rs B) (urls : List String)
    (docs : String → List GoVal) (h : ∀ u ∈ urls, Answers E u (docs u)) :
    AppendKeysFromUrl E urls =
      (some (urls.flatMap fun u => objectEntries (docs u)), none) ∧
    (urls.flatMap fun u => objectEntries (docs u)).length =
      (urls.map fun u => ((docs u).filter fun v => !notObject v).length).sum ∧
    AppendKeysFromUrl E [] = (some [], none) := by
  refine ⟨?_, ?_, rfl⟩
  · unfold AppendKeysFromUrl
    rw [appendLoop_answers E docs urls [] h]
    simp
  · rw [List.length_flatMap]
    congr 1
    apply List.map_congr_left
    intro u _
    exact objectEntries_length (docs u)

/-- Witness of C7: two endpoints, the first serving two records and one entry
that is not an object, the second serving one record. -/
theorem appendKeysFromUrl_concat_witness :
    (∀ u ∈ ["https://a/jwks", "https://b/jwks"], Answers refEnv u (refDocs u)) ∧
    AppendKeysFromUrl refEnv ["https://a/jwks", "https://b/jwks"] =
      (some [keyK1, keyK1b, keyK3], none) ∧
    (AppendKeysFromUrl refEnv ["https://a/jwks", "https://b/jwks"] =
      (some (["https://a/jwks", "https://b/jwks"].flatMap fun u => objectEntries (refDocs u)),
        none) ∧
    (["https://a/jwks", "https://b/jwks"].flatMap fun u => objectEntries (refDocs u)).length =
      (["https://a/jwks", "https://b/jwks"].map fun u =>
        ((refDocs u).filter fun v => !notObject v).length).sum ∧
    AppendKeysFromUrl refEnv [] = (some [], none)) :=
  have h : ∀ u ∈ ["https://a/jwks", "https://b/jwks"], Answers refEnv u (refDocs u) := by
    intro u hu
    simp only [List.mem_cons, List.mem_singleton, List.not_mem_nil, or_false] at hu
    rcases hu with rfl | rfl
    · exact ⟨"https://a/jwks", "docA", "docA",
        [("keys", .arr [.obj keyK1, .str "junk", .obj keyK1b])], rfl, rfl, rfl, rfl, rfl⟩
    · exact ⟨"https://b/jwks", "docB", "docB", [("keys", .arr [.obj keyK3])],
        rfl, rfl, rfl, rfl, rfl⟩
  ⟨h, rfl, appendKeysFromUrl_concat refEnv ["https://a/jwks", "https://b/jwks"] refDocs h⟩

/-- C8: `AppendKeysFromUrl` is all-or-nothing.  If at least one endpoint of
the list fails (the request fails, the body does not decode to a JSON object,
or its `"keys"` field is missing or not an array), the call returns an error
together with the nil key list, whatever earlier endpoints contributed. -/
theorem appendKeysFromUrl_all_or_nothing {Rq Rs B : Type} (E : HttpEnv Rq Rs B)
    (urls : List String) (h : ∃ u ∈ urls, Fails E u) :
    ∃ e, AppendKeysFromUrl E urls = (none, some e) :=
  appendLoop_fails E urls [] h

/-- Witness of C8: a first endpoint that serves two records, followed by one
whose `"keys"` field is an object, not an array. -/
theorem appendKeysFromUrl_all_or_nothing_witness :
    (∃ u ∈ ["https://a/jwks", "https://c/jwks"], Fails refEnv u) ∧
    AppendKeysFromUrl refEnv ["https://a/jwks", "https://c/jwks"] = (none, some .keysNotSlice) ∧
    ∃ e, AppendKeysFromUrl refEnv ["https://a/jwks", "https://c/jwks"] = (none, some e) :=
  have h : ∃ u ∈ ["https://a/jwks", "https://c/jwks"], Fails refEnv u :=
    ⟨"https://c/jwks", by simp,
      Or.inr (Or.inr (Or.inr (Or.inr ⟨"https://c/jwks", "docKeysObject", "docKeysObject",
        [("keys", .obj keyK3)], rfl, rfl, rfl, rfl, rfl⟩)))⟩
  ⟨h, rfl, appendKeysFromUrl_all_or_nothing refEnv ["https://a/jwks", "https://c/jwks"] h⟩

/-- C9, as stated, fails: the valid token naming key "k1" is accepted under a
record that declares `alg` = "HS256"; the record is the one selected, and its
algorithm declaration is not in the RSA-signature family. -/
theorem verifyToken_accepts_record_alg_hs256 :
    refLib.parseUnverified "hK1.fresh.N1" = .ok tokValid ∧
    firstMatch (tokValid.header.index "kid") [keyAlgHS] = some (0, keyAlgHS) ∧
    keyAlgHS.index "kty" = .str "RSA" ∧ keyAlgHS.index "alg" = .str "HS256" ∧
    (VerifyToken refLib "hK1.fresh.N1" [keyAlgHS]).1 = .ok () :=
  ⟨rfl, rfl, rfl, rfl, rfl⟩

/-- C9, amended: if `VerifyToken` returns no error, then the token parsed with
an RSA-family algorithm, the record selected is the first one whose `kid`
equals the header's, the library converted that record into an RSA public key
and the signature verified under that key; with a library that only converts
records declaring `kty` = "RSA", the selected record declares `kty` = "RSA".
The `alg` field of the record is not constrained. -/
theorem verifyToken_ok_selected_record {B K P : Type} (L : JwtLib B K P) (token : String)
    (keys : List KeyRecord)
    (hkty : ∀ r pk, (materialise L r).1 = .ok pk → r.index "kty" = .str "RSA")
    (hok : (VerifyToken L token keys).1 = .ok ()) :
    ∃ t i r pk, L.parseUnverified token = .ok t ∧ t.method = .rsa ∧
      firstMatch (t.header.index "kid") keys = some (i, r) ∧
      (materialise L r).1 = .ok pk ∧
      L.rsaVerify t.signingString t.signature pk = .ok () ∧
      r.index "kty" = .str "RSA" := by
  obtain ⟨t, pk, hparse, hk, hv⟩ := verifyToken_ok_keyFunc L token keys hok
  have hrsa : t.method = .rsa := by
    by_contra hne
    simp [keyFunc, hne] at hk
  rw [keyFunc_rsa L keys t hrsa] at hk
  obtain ⟨j, r, hfm, hm⟩ := keyLoop_ok_some L _ keys 0 pk hk
  refine ⟨t, j, r, pk, hparse, hrsa, hfm, hm, ?_, hkty r pk hm⟩
  simpa [methodVerify, hrsa] using hv

/-- Witness of C9 amended: the valid token against the record of key "k1". -/
theorem verifyToken_ok_selected_record_witness :
    (∀ r pk, (materialise refLib r).1 = .ok pk → r.index "kty" = .str "RSA") ∧
    (VerifyToken refLib "hK1.fresh.N1" [keyK3, keyK1]).1 = .ok () ∧
    ∃ t i r pk, refLib.parseUnverified "hK1.fresh.N1" = .ok t ∧ t.method = .rsa ∧
      firstMatch (t.header.index "kid") [keyK3, keyK1] = some (i, r) ∧
      (materialise refLib r).1 = .ok pk ∧
      refLib.rsaVerify t.signingString t.signature pk = .ok () ∧
      r.index "kty" = .str "RSA" :=
  ⟨refLib_materialise_kty, rfl,
    verifyToken_ok_selected_record refLib "hK1.fresh.N1" [keyK3, keyK1]
      refLib_materialise_kty rfl⟩

/-- C10, at the failing input: an RS256 token whose header `kid` is a JSON
array, verified against a key set whose first record has a JSON array as
`kid`.  The comparison of line 21 is between two slices; it panics, and the
call ends with neither success nor an error. -/
theorem verifyToken_panics_on_array_kid :
    refLib.parseUnverified "hArrKid.fresh.N1" = .ok tokArrKid ∧
    tokArrKid.header.index "kid" = .arr [] ∧ keyArrKid.index "kid" = .arr [] ∧
    goEq (tokArrKid.header.index "kid") (keyArrKid.index "kid") = none ∧
    VerifyToken refLib "hArrKid.fresh.N1" [keyArrKid, keyK1] = (.panic, [.key .compareKid 0]) :=
  ⟨rfl, rfl, rfl, rfl,
    verifyToken_panic_of_uncomparable refLib "hArrKid.fresh.N1" tokArrKid keyArrKid [keyK1]
      rfl rfl rfl⟩

end Authorizer
